import Mathlib

/-!
Verification of the cheers-app friendship/birthday core against its
natural-language specification.

The embedding below is a shallow model of the client-side logic in
`src/pages/Friends.tsx` (friendship resolution and the search filter),
`src/pages/Dashboard` (the upcoming-birthday computation in
`fetchDashboardData`), `src/pages/Feed.tsx` / the notification system
(the same-day birthday match), and `src/pages/Calendar.tsx` (the
specific-year projection).

Modelling conventions:
* Calendar dates are `(year, month, day)` triples with 1-based months,
  as produced by parsing the stored ISO `YYYY-MM-DD` strings.  The
  runtime timezone is assumed to be UTC, so that the component getters
  (`getMonth`, `getDate`) of a parsed date agree with the stored
  components.
* JavaScript `Date` instants are modelled as a calendar date plus the
  milliseconds elapsed since that day's midnight; `getTime` is linear
  in days (no DST discontinuities are modelled).
* The `Date(year, monthIndex, day)` constructor and `setFullYear`
  normalise out-of-range days by rolling into the following month
  (ECMAScript `MakeDay`); `rollover`/`mkDate` reproduce this for the
  in-range months the app produces.
* `Array.prototype.sort` with the comparator
  `(a, b) => a.daysUntil - b.daysUntil` is a stable ascending sort by
  `daysUntil`; it is modelled by `List.insertionSort` over the non-strict
  key ordering, which produces the same (unique) stable ascending
  reordering: among entries with equal keys the input order is kept.
* Display-only record fields (names, emails, avatars) are omitted:
  no claimed property depends on them.
-/

namespace Cheers

/-- A calendar date: year (may be negative in principle), 1-based month, day. -/
structure Date where
  year : Int
  month : Nat
  day : Nat
deriving DecidableEq

/-- Gregorian leap-year rule, as implemented by JavaScript `Date`. -/
def isLeapYear (y : Int) : Bool :=
  y % 4 == 0 && (y % 100 != 0 || y % 400 == 0)

/-- Number of days in month `m` (1-based) of year `y`. -/
def daysInMonth (y : Int) : Nat → Nat
  | 1 => 31
  | 2 => if isLeapYear y then 29 else 28
  | 3 => 31
  | 4 => 30
  | 5 => 31
  | 6 => 30
  | 7 => 31
  | 8 => 31
  | 9 => 30
  | 10 => 31
  | 11 => 30
  | 12 => 31
  | _ => 0

/-- Roll a possibly out-of-range day count forward into following months,
as ECMAScript `MakeDay` does for `new Date(y, m, d)` with `d` past the end
of the month.  The fuel argument bounds the recursion; `mkDate` passes the
day itself, which always suffices since each step removes at least 28 days. -/
def rollover : Nat → Int → Nat → Nat → Date
  | 0, y, m, d => ⟨y, m, d⟩
  | fuel + 1, y, m, d =>
    if d ≤ daysInMonth y m then ⟨y, m, d⟩
    else if 12 ≤ m then rollover fuel (y + 1) 1 (d - daysInMonth y m)
    else rollover fuel y (m + 1) (d - daysInMonth y m)

/-- `new Date(y, m - 1, d)` for a 1-based month `m` in `1..12`:
the first of the month plus `d - 1` days, i.e. day overflow rolls into the
next month (so February 29 of a non-leap year becomes March 1). -/
def mkDate (y : Int) (m d : Nat) : Date := rollover d y m d

/-- date-fns `setYear(date, y)`: delegates to `Date.prototype.setFullYear`,
which rebuilds the instant from `(y, currentMonth, currentDay)` with the
same `MakeDay` normalisation as the constructor. -/
def setYear (d : Date) (y : Int) : Date := mkDate y d.month d.day

/-- Days in the year strictly before the first of month `m` (non-leap year). -/
def monthOffset : Nat → Nat
  | 1 => 0
  | 2 => 31
  | 3 => 59
  | 4 => 90
  | 5 => 120
  | 6 => 151
  | 7 => 181
  | 8 => 212
  | 9 => 243
  | 10 => 273
  | 11 => 304
  | 12 => 334
  | _ => 365

/-- 1-based ordinal of the date within its year. -/
def dayOfYear (d : Date) : Int :=
  (monthOffset d.month : Int)
    + (if isLeapYear d.year && decide (2 < d.month) then 1 else 0)
    + d.day

/-- Number of leap years `y'` with `0 ≤ y' < y` (Gregorian, proleptic). -/
def leapsBefore (y : Int) : Int :=
  (y + 3).fdiv 4 - (y + 99).fdiv 100 + (y + 399).fdiv 400

/-- Day number of a date, counted from 0000-01-01.  JavaScript `Day()` counts
from 1970-01-01 instead; the two differ by a constant, and the code only ever
uses differences and order comparisons of day numbers, which agree. -/
def toDays (d : Date) : Int :=
  365 * d.year + leapsBefore d.year + dayOfYear d - 1

def msPerDay : Int := 86400000

/-- A JavaScript `Date` instant: a calendar day plus milliseconds since its
midnight.  `new Date()` produces the current instant, whose `msOfDay` is
almost never zero. -/
structure Timestamp where
  date : Date
  msOfDay : Int
deriving DecidableEq

/-- `getTime()` up to a constant epoch offset. -/
def time (t : Timestamp) : Int := toDays t.date * msPerDay + t.msOfDay

/-- The instant at local midnight of a date — what `parseISO` of a
date-only string and `new Date(y, m, d)` produce. -/
def midnight (d : Date) : Timestamp := ⟨d, 0⟩

/-- date-fns `isBefore`: strict comparison of `getTime()` values. -/
def isBefore (a b : Timestamp) : Bool := time a < time b

/-- `Math.ceil(a / b)` for integers with `b > 0`. -/
def ceilDiv (a b : Int) : Int := (a + b - 1).fdiv b

/-- Result row of the Dashboard's per-friend birthday computation. -/
structure Occurrence where
  date : Date
  daysUntil : Int
deriving DecidableEq

/-- The Dashboard's next-birthday computation (`fetchDashboardData`,
`src/unnamed/part_002` lines 74–92): build the candidate
`new Date(thisYear, birthday.getMonth(), birthday.getDate())`; if it
`isBefore` the current instant `today` (a full-timestamp comparison),
move it to `thisYear + 1` via `setFullYear`; `daysUntil` is
`Math.ceil((nextBirthday.getTime() - today.getTime()) / 86400000)`. -/
def nextOccurrence (birthDate : Date) (today : Timestamp) : Occurrence :=
  let thisYear := today.date.year
  let candidate := mkDate thisYear birthDate.month birthDate.day
  let nextBirthday :=
    if isBefore (midnight candidate) today then
      mkDate (thisYear + 1) candidate.month candidate.day
    else candidate
  { date := nextBirthday
    daysUntil := ceilDiv (time (midnight nextBirthday) - time today) msPerDay }

/-- A profile row as the Dashboard sees it: identifier and optional
birthday (display fields omitted). -/
structure Person where
  id : String
  birthday : Option Date
deriving DecidableEq

/-- An entry of the Dashboard's upcoming-birthday list. -/
structure UpcomingBirthday where
  id : String
  birthday : Date
  daysUntil : Int
deriving DecidableEq

/-- The unsorted per-friend occurrence rows: friends with a null birthday
are dropped by the `filter(friend => friend && friend.birthday)` step, the
rest are mapped through the next-birthday computation. -/
def occurrences (people : List Person) (today : Timestamp) : List UpcomingBirthday :=
  (people.filter (fun p => p.birthday.isSome)).map (fun p =>
    let b := p.birthday.getD ⟨0, 1, 1⟩
    { id := p.id
      birthday := b
      daysUntil := (nextOccurrence b today).daysUntil })

/-- The sort comparator `(a, b) => a.daysUntil - b.daysUntil` viewed as the
ordering it induces: `a` sorts no later than `b` iff `a.daysUntil ≤ b.daysUntil`. -/
def occLE (a b : UpcomingBirthday) : Prop := a.daysUntil ≤ b.daysUntil

instance : DecidableRel occLE := fun a b => Int.decLe a.daysUntil b.daysUntil

instance : IsTotal UpcomingBirthday occLE :=
  ⟨fun a b => Int.le_total a.daysUntil b.daysUntil⟩

instance : IsTrans UpcomingBirthday occLE :=
  ⟨fun _ _ _ hab hbc => Int.le_trans hab hbc⟩

/-- `.sort((a, b) => a.daysUntil - b.daysUntil)`: a stable ascending sort
by `daysUntil`, modelled by the stable `List.insertionSort`. -/
def sortedOccurrences (people : List Person) (today : Timestamp) : List UpcomingBirthday :=
  (occurrences people today).insertionSort occLE

/-- The Dashboard's upcoming-birthday list: sort then `.slice(0, limit)`
(the source instantiates `limit := 5`). -/
def upcoming (people : List Person) (today : Timestamp) (limit : Nat) : List UpcomingBirthday :=
  (sortedOccurrences people today).take limit

/-! ## Friendship resolution (`src/pages/Friends.tsx`) -/

inductive FriendshipStatus where
  | accepted
  | pending
  | declined
deriving DecidableEq

/-- A `friendships` row.  The joined `requester` / `addressee` profile
objects are keyed by the foreign keys `requester_id` / `addressee_id`, so
each joined profile is represented by its identifier. -/
structure FriendshipEdge where
  id : String
  requester_id : String
  addressee_id : String
  status : FriendshipStatus
deriving DecidableEq

/-- The per-edge record `fetchFriends` builds (`Friends.tsx` lines 73–85):
display fields omitted. -/
structure Friend where
  id : String
  status : FriendshipStatus
  friendship_id : String
  is_requester : Bool
deriving DecidableEq

/-- Lines 73–85 of `Friends.tsx`: `isRequester = requester_id === profile.id`;
the counterpart profile is the addressee if so, else the requester. -/
def friendData (viewerId : String) (e : FriendshipEdge) : Friend :=
  let isRequester := e.requester_id == viewerId
  { id := if isRequester then e.addressee_id else e.requester_id
    status := e.status
    friendship_id := e.id
    is_requester := isRequester }

/-- The two state lists `fetchFriends` fills. -/
structure Resolved where
  friends : List Friend
  pendingRequests : List Friend
deriving DecidableEq

/-- Lines 72–92 of `Friends.tsx`: the `forEach` pushes `friendData` onto
`processedFriends` when `status === 'accepted'` and onto `processedPending`
when `status === 'pending'` (declined edges are pushed nowhere), preserving
input order — i.e. each list is a filter-then-map of the edges. -/
def resolve (viewerId : String) (edges : List FriendshipEdge) : Resolved :=
  { friends :=
      (edges.filter (fun e => decide (e.status = FriendshipStatus.accepted))).map
        (friendData viewerId)
    pendingRequests :=
      (edges.filter (fun e => decide (e.status = FriendshipStatus.pending))).map
        (friendData viewerId) }

/-- `pendingRequests.filter(r => !r.is_requester)` — incoming requests
(`Friends.tsx` lines 273, 275). -/
def incomingPending (r : Resolved) : List Friend :=
  r.pendingRequests.filter (fun f => ! f.is_requester)

/-- `pendingRequests.filter(r => r.is_requester)` — sent requests
(`Friends.tsx` lines 316, 321). -/
def outgoingPending (r : Resolved) : List Friend :=
  r.pendingRequests.filter (fun f => f.is_requester)

/-- A `profiles` row as returned by the user search (display fields omitted). -/
structure UserRec where
  id : String
deriving DecidableEq

/-- `searchUsers` lines 122–126: `existingConnections` is the id list of
`[...friends, ...pendingRequests]`; candidates whose id it contains are
filtered out. -/
def excludeConnected (candidates : List UserRec) (friends pendingRequests : List Friend) :
    List UserRec :=
  let existingConnections := (friends ++ pendingRequests).map (fun f => f.id)
  candidates.filter (fun u => ! existingConnections.contains u.id)

/-! ## Same-day birthday match (`Feed.tsx` lines 117–122,
the notification system `src/unnamed/part_004` lines 41–47) -/

/-- `String(n).padStart(2, '0')` for a natural number. -/
def pad2 (n : Nat) : String :=
  if n < 10 then "0" ++ toString n else toString n

/-- The zero-padded `"MM-DD"` key both sides of the comparison build. -/
def monthDayString (m d : Nat) : String := pad2 m ++ "-" ++ pad2 d

/-- The same-day filter: a person matches the queried month/day when they
have a birthday and its `"MM-DD"` string equals the queried one.  The query
year appears nowhere — `onDay` has no year parameter at all. -/
def onDay (people : List Person) (m d : Nat) : List Person :=
  people.filter (fun p =>
    match p.birthday with
    | none => false
    | some b => monthDayString b.month b.day == monthDayString m d)

/-! ### Concrete inputs used in witnesses -/

/-- The specification's §8 resolver scenario: viewer `"A"`, an accepted edge
requested by the viewer and a pending edge addressed to the viewer. -/
def edgesA : List FriendshipEdge :=
  [⟨"e1", "A", "B", FriendshipStatus.accepted⟩,
   ⟨"e2", "C", "A", FriendshipStatus.pending⟩]

/-- The specification's §8 upcoming scenario: three people whose birthdays are
5, 0 and 40 days away from the reference date 2025-06-15. -/
def peopleB : List Person :=
  [⟨"a", some ⟨1990, 6, 20⟩⟩, ⟨"b", some ⟨1990, 6, 15⟩⟩, ⟨"c", some ⟨1990, 7, 25⟩⟩]

/-! ## Helper lemmas -/

/-- The three statuses split the edge list: the filtered sublists'
lengths sum to the input length. -/
theorem status_filter_lengths (edges : List FriendshipEdge) :
    (edges.filter (fun e => decide (e.status = FriendshipStatus.accepted))).length
      + (edges.filter (fun e => decide (e.status = FriendshipStatus.pending))).length
      + (edges.filter (fun e => decide (e.status = FriendshipStatus.declined))).length
      = edges.length := by
  induction edges with
  | nil => rfl
  | cons e es ih => cases h : e.status <;> simp [List.filter_cons, h] <;> omega

/-- Splitting a list by a boolean field preserves total length. -/
theorem is_requester_filter_lengths (l : List Friend) :
    (l.filter (fun f => ! f.is_requester)).length
      + (l.filter (fun f => f.is_requester)).length = l.length := by
  induction l with
  | nil => rfl
  | cons f fs ih => cases h : f.is_requester <;> simp [List.filter_cons, h] <;> omega

/-- Characterisation of the friendship ids reaching the confirmed list. -/
theorem mem_confirmed_ids {v i : String} {edges : List FriendshipEdge} :
    i ∈ (resolve v edges).friends.map (fun f => f.friendship_id) ↔
      ∃ e, e ∈ edges ∧ e.status = FriendshipStatus.accepted ∧ e.id = i := by
  simp only [resolve, List.map_map, List.mem_map, List.mem_filter,
    Function.comp, friendData, decide_eq_true_eq]
  constructor
  · rintro ⟨e, ⟨he, hs⟩, hi⟩
    exact ⟨e, he, hs, hi⟩
  · rintro ⟨e, he, hs, hi⟩
    exact ⟨e, ⟨he, hs⟩, hi⟩

/-- Characterisation of the friendship ids reaching the incoming-pending list. -/
theorem mem_incoming_ids {v i : String} {edges : List FriendshipEdge} :
    i ∈ (incomingPending (resolve v edges)).map (fun f => f.friendship_id) ↔
      ∃ e, e ∈ edges ∧ e.status = FriendshipStatus.pending ∧
        (e.requester_id == v) = false ∧ e.id = i := by
  simp only [incomingPending, resolve, List.mem_map, List.mem_filter,
    friendData, decide_eq_true_eq, Bool.not_eq_true']
  constructor
  · rintro ⟨f, ⟨⟨e, ⟨he, hs⟩, hf⟩, hreq⟩, hi⟩
    subst hf
    exact ⟨e, he, hs, hreq, hi⟩
  · rintro ⟨e, he, hs, hreq, hi⟩
    exact ⟨friendData v e, ⟨⟨e, ⟨he, hs⟩, rfl⟩, hreq⟩, hi⟩

/-- Characterisation of the friendship ids reaching the outgoing-pending list. -/
theorem mem_outgoing_ids {v i : String} {edges : List FriendshipEdge} :
    i ∈ (outgoingPending (resolve v edges)).map (fun f => f.friendship_id) ↔
      ∃ e, e ∈ edges ∧ e.status = FriendshipStatus.pending ∧
        (e.requester_id == v) = true ∧ e.id = i := by
  simp only [outgoingPending, resolve, List.mem_map, List.mem_filter,
    friendData, decide_eq_true_eq]
  constructor
  · rintro ⟨f, ⟨⟨e, ⟨he, hs⟩, hf⟩, hreq⟩, hi⟩
    subst hf
    exact ⟨e, he, hs, hreq, hi⟩
  · rintro ⟨e, he, hs, hreq, hi⟩
    exact ⟨friendData v e, ⟨⟨e, ⟨he, hs⟩, rfl⟩, hreq⟩, hi⟩

/-! ## Claims -/

/-- C1 (code-bug evidence): the claim says a birthday whose month/day equal
the reference date's month/day yields `daysUntil = 0`.  The code compares the
candidate (a midnight instant) against `new Date()` with `isBefore`, a full
timestamp comparison, so at any instant after midnight the same-day candidate
is "before" now and is advanced a full year: at noon of 2025-06-15 a
1990-06-15 birthday yields `daysUntil = 365`, not `0`.  Only at the exact
midnight instant does the code return `0` as claimed. -/
theorem nextOccurrence_same_day_noon_bug :
    (nextOccurrence ⟨1990, 6, 15⟩ ⟨⟨2025, 6, 15⟩, 43200000⟩).daysUntil = 365 ∧
    (nextOccurrence ⟨1990, 6, 15⟩ ⟨⟨2025, 6, 15⟩, 0⟩).daysUntil = 0 := by
  exact ⟨by decide, by decide⟩

/-- C2 (counterexample): the claim says an edge whose requester and addressee
both differ from the viewer is rejected with a validation error and never
silently classified.  `fetchFriends` performs no such validation: for viewer
`"a"`, the unrelated accepted edge `("e1", "b", "c")` is silently classified
into the confirmed list (with the requester `"b"` as counterpart). -/
theorem resolve_unrelated_edge_silently_confirmed :
    (resolve "a" [⟨"e1", "b", "c", FriendshipStatus.accepted⟩]).friends =
      [⟨"b", FriendshipStatus.accepted, "e1", false⟩] := by
  decide

/-- C2 (amended): `resolve` never rejects an edge.  An edge whose requester is
not the viewer — in particular an edge referencing the viewer on neither side —
is classified as if the viewer were the addressee: `is_requester` is `false`,
the counterpart is the edge's requester, and the edge lands in the confirmed
list when accepted and in the pending list when pending. -/
theorem resolve_unrelated_edge_classified (viewer : String)
    (edges : List FriendshipEdge) (e : FriendshipEdge)
    (he : e ∈ edges) (hreq : e.requester_id ≠ viewer) :
    (friendData viewer e).id = e.requester_id ∧
    (friendData viewer e).is_requester = false ∧
    (e.status = FriendshipStatus.accepted →
      friendData viewer e ∈ (resolve viewer edges).friends) ∧
    (e.status = FriendshipStatus.pending →
      friendData viewer e ∈ (resolve viewer edges).pendingRequests) := by
  have hbeq : (e.requester_id == viewer) = false := by
    simpa using hreq
  refine ⟨by simp [friendData, hbeq], by simp [friendData, hbeq], ?_, ?_⟩
  · intro hs
    exact List.mem_map_of_mem (friendData viewer)
      (List.mem_filter.mpr ⟨he, by simp [hs]⟩)
  · intro hs
    exact List.mem_map_of_mem (friendData viewer)
      (List.mem_filter.mpr ⟨he, by simp [hs]⟩)

/-- Witness for C2's amended theorem at the counterexample edge. -/
theorem resolve_unrelated_edge_classified_witness :
    (friendData "a" ⟨"e1", "b", "c", FriendshipStatus.accepted⟩).id = "b" ∧
    (friendData "a" ⟨"e1", "b", "c", FriendshipStatus.accepted⟩).is_requester = false ∧
    ((⟨"e1", "b", "c", FriendshipStatus.accepted⟩ : FriendshipEdge).status =
        FriendshipStatus.accepted →
      friendData "a" ⟨"e1", "b", "c", FriendshipStatus.accepted⟩ ∈
        (resolve "a" [⟨"e1", "b", "c", FriendshipStatus.accepted⟩]).friends) ∧
    ((⟨"e1", "b", "c", FriendshipStatus.accepted⟩ : FriendshipEdge).status =
        FriendshipStatus.pending →
      friendData "a" ⟨"e1", "b", "c", FriendshipStatus.accepted⟩ ∈
        (resolve "a" [⟨"e1", "b", "c", FriendshipStatus.accepted⟩]).pendingRequests) :=
  resolve_unrelated_edge_classified "a" _ _ (by decide) (by decide)

/-- C7: the same-day match is year-agnostic.  For a person whose stored birth
date is February 29 of any birth year `y`, membership in `onDay people 2 29`
is exactly membership in `people`: the filter compares only the zero-padded
month-day strings, and `onDay` has no year parameter at all, so neither the
birth year nor the leap status of the year the query is made in can affect
the outcome. -/
theorem onDay_feb29_year_agnostic (people : List Person) (p : Person) (y : Int)
    (hb : p.birthday = some ⟨y, 2, 29⟩) :
    p ∈ onDay people 2 29 ↔ p ∈ people := by
  constructor
  · intro h
    exact (List.mem_filter.mp h).1
  · intro h
    refine List.mem_filter.mpr ⟨h, ?_⟩
    rw [hb]
    simp

/-- Witness for C7 at a concrete Feb 29 birth date. -/
theorem onDay_feb29_year_agnostic_witness :
    (⟨"p", some ⟨1992, 2, 29⟩⟩ : Person) ∈ onDay [⟨"p", some ⟨1992, 2, 29⟩⟩] 2 29 :=
  (onDay_feb29_year_agnostic [⟨"p", some ⟨1992, 2, 29⟩⟩] _ 1992 rfl).mpr (by decide)

/-- C9: the de facto leap-year policy.  For a February 29 birth date and a
non-leap candidate year `y`, the Dashboard's candidate construction
`new Date(y, 1, 29)` (`mkDate y 2 29`) and the Calendar's specific-year
projection `setYear(birthday, y)` both normalise the nonexistent
February 29 to March 1 of `y`, for every birth year `b`. -/
theorem feb29_overflows_to_march1 (y b : Int) (hl : isLeapYear y = false) :
    mkDate y 2 29 = ⟨y, 3, 1⟩ ∧ setYear ⟨b, 2, 29⟩ y = ⟨y, 3, 1⟩ := by
  have h : mkDate y 2 29 = ⟨y, 3, 1⟩ := by
    show rollover (28 + 1) y 2 29 = ⟨y, 3, 1⟩
    rw [rollover]
    simp only [daysInMonth, hl, if_false]
    norm_num
    show rollover (27 + 1) y 3 1 = ⟨y, 3, 1⟩
    rw [rollover]
    simp [daysInMonth]
  exact ⟨h, h⟩

/-- Witness for C9 in the non-leap year 2025, birth year 1992. -/
theorem feb29_overflows_to_march1_witness :
    isLeapYear 2025 = false ∧
    (mkDate 2025 2 29 = ⟨2025, 3, 1⟩ ∧ setYear ⟨1992, 2, 29⟩ 2025 = ⟨2025, 3, 1⟩) :=
  ⟨by decide, feb29_overflows_to_march1 2025 1992 (by decide)⟩

/-- C3: for every viewer and list of valid edges — each referencing the viewer
and carrying pairwise-distinct identifiers (the status type already restricts
statuses to accepted/pending/declined) — resolution assigns each edge to
exactly one bucket: the confirmed, incoming-pending and outgoing-pending lists
are pairwise disjoint by friendship id, and their lengths plus the number of
declined edges sum to the number of input edges. -/
theorem resolve_partitions (viewer : String) (edges : List FriendshipEdge)
    (href : ∀ e ∈ edges, e.requester_id = viewer ∨ e.addressee_id = viewer)
    (hids : (edges.map (fun e => e.id)).Nodup) :
    List.Disjoint
        ((resolve viewer edges).friends.map (fun f => f.friendship_id))
        ((incomingPending (resolve viewer edges)).map (fun f => f.friendship_id)) ∧
    List.Disjoint
        ((resolve viewer edges).friends.map (fun f => f.friendship_id))
        ((outgoingPending (resolve viewer edges)).map (fun f => f.friendship_id)) ∧
    List.Disjoint
        ((incomingPending (resolve viewer edges)).map (fun f => f.friendship_id))
        ((outgoingPending (resolve viewer edges)).map (fun f => f.friendship_id)) ∧
    (resolve viewer edges).friends.length
      + (incomingPending (resolve viewer edges)).length
      + (outgoingPending (resolve viewer edges)).length
      + (edges.filter (fun e => decide (e.status = FriendshipStatus.declined))).length
      = edges.length := by
  have inj := List.inj_on_of_nodup_map hids
  refine ⟨?_, ?_, ?_, ?_⟩
  · intro i h1 h2
    obtain ⟨e, he, hs, hi⟩ := mem_confirmed_ids.mp h1
    obtain ⟨e', he', hs', _, hi'⟩ := mem_incoming_ids.mp h2
    cases inj he he' (hi.trans hi'.symm)
    exact absurd (hs.symm.trans hs') (by decide)
  · intro i h1 h2
    obtain ⟨e, he, hs, hi⟩ := mem_confirmed_ids.mp h1
    obtain ⟨e', he', hs', _, hi'⟩ := mem_outgoing_ids.mp h2
    cases inj he he' (hi.trans hi'.symm)
    exact absurd (hs.symm.trans hs') (by decide)
  · intro i h1 h2
    obtain ⟨e, he, hs, hreq, hi⟩ := mem_incoming_ids.mp h1
    obtain ⟨e', he', hs', hreq', hi'⟩ := mem_outgoing_ids.mp h2
    cases inj he he' (hi.trans hi'.symm)
    exact absurd (hreq.symm.trans hreq') (by decide)
  · have h1 : (resolve viewer edges).friends.length
        = (edges.filter (fun e => decide (e.status = FriendshipStatus.accepted))).length := by
      simp [resolve]
    have h2 : (resolve viewer edges).pendingRequests.length
        = (edges.filter (fun e => decide (e.status = FriendshipStatus.pending))).length := by
      simp [resolve]
    have h3 := is_requester_filter_lengths (resolve viewer edges).pendingRequests
    have h4 := status_filter_lengths edges
    simp only [incomingPending, outgoingPending] at *
    omega

/-- Witness for C3 at the specification's §8 resolver scenario. -/
theorem resolve_partitions_witness :
    (∀ e ∈ edgesA, e.requester_id = "A" ∨ e.addressee_id = "A") ∧
    (edgesA.map (fun e => e.id)).Nodup ∧
    (List.Disjoint
        ((resolve "A" edgesA).friends.map (fun f => f.friendship_id))
        ((incomingPending (resolve "A" edgesA)).map (fun f => f.friendship_id)) ∧
     List.Disjoint
        ((resolve "A" edgesA).friends.map (fun f => f.friendship_id))
        ((outgoingPending (resolve "A" edgesA)).map (fun f => f.friendship_id)) ∧
     List.Disjoint
        ((incomingPending (resolve "A" edgesA)).map (fun f => f.friendship_id))
        ((outgoingPending (resolve "A" edgesA)).map (fun f => f.friendship_id)) ∧
     (resolve "A" edgesA).friends.length
       + (incomingPending (resolve "A" edgesA)).length
       + (outgoingPending (resolve "A" edgesA)).length
       + (edgesA.filter (fun e => decide (e.status = FriendshipStatus.declined))).length
       = edgesA.length) :=
  ⟨by decide, by decide, resolve_partitions "A" edgesA (by decide) (by decide)⟩

/-- C4: for every population, reference instant and limit, the upcoming list
is sorted non-decreasing by `daysUntil`, contains at most `limit` entries, is
the `limit`-prefix of a sorted permutation of the occurrence rows, and every
returned entry's `daysUntil` is at most every dropped entry's — i.e. the
entries kept are the ones with the smallest `daysUntil` values. -/
theorem upcoming_sorted_and_truncated (people : List Person) (today : Timestamp)
    (limit : Nat) :
    (upcoming people today limit).Pairwise (fun a b => a.daysUntil ≤ b.daysUntil) ∧
    (upcoming people today limit).length ≤ limit ∧
    (sortedOccurrences people today).Perm (occurrences people today) ∧
    (∀ a ∈ upcoming people today limit,
      ∀ b ∈ (sortedOccurrences people today).drop limit, a.daysUntil ≤ b.daysUntil) := by
  have hsorted : (sortedOccurrences people today).Pairwise occLE :=
    List.sorted_insertionSort occLE (occurrences people today)
  refine ⟨?_, List.length_take_le _ _, List.perm_insertionSort occLE _, ?_⟩
  · exact List.Pairwise.sublist (List.take_sublist _ _) hsorted
  · intro a ha b hb
    have h2 := hsorted
    rw [← List.take_append_drop limit (sortedOccurrences people today)] at h2
    exact (List.pairwise_append.mp h2).2.2 a ha b hb

/-- Witness for C4 at the specification's example (`daysUntil` values 5, 0, 40
with limit 2): the list returned is the 0-entry then the 5-entry. -/
theorem upcoming_sorted_and_truncated_witness :
    ((upcoming peopleB ⟨⟨2025, 6, 15⟩, 0⟩ 2).Pairwise
        (fun a b => a.daysUntil ≤ b.daysUntil) ∧
      (upcoming peopleB ⟨⟨2025, 6, 15⟩, 0⟩ 2).length ≤ 2 ∧
      (sortedOccurrences peopleB ⟨⟨2025, 6, 15⟩, 0⟩).Perm
        (occurrences peopleB ⟨⟨2025, 6, 15⟩, 0⟩) ∧
      (∀ a ∈ upcoming peopleB ⟨⟨2025, 6, 15⟩, 0⟩ 2,
        ∀ b ∈ (sortedOccurrences peopleB ⟨⟨2025, 6, 15⟩, 0⟩).drop 2,
          a.daysUntil ≤ b.daysUntil)) ∧
    (upcoming peopleB ⟨⟨2025, 6, 15⟩, 0⟩ 2).map (fun o => (o.id, o.daysUntil)) =
      [("b", 0), ("a", 5)] :=
  ⟨upcoming_sorted_and_truncated peopleB ⟨⟨2025, 6, 15⟩, 0⟩ 2, by decide⟩

/-- C5 (counterexample): the claim says ties in `daysUntil` are broken by
person identifier, making the output a function of the input set alone.  The
comparator is `a.daysUntil - b.daysUntil` only, and the sort is stable, so
listing the same two tied people in the two possible orders produces two
different outputs. -/
theorem upcoming_tie_depends_on_input_order :
    upcoming [⟨"a", some ⟨1990, 6, 20⟩⟩, ⟨"b", some ⟨1991, 6, 20⟩⟩]
        ⟨⟨2025, 6, 15⟩, 0⟩ 5 ≠
      upcoming [⟨"b", some ⟨1991, 6, 20⟩⟩, ⟨"a", some ⟨1990, 6, 20⟩⟩]
        ⟨⟨2025, 6, 15⟩, 0⟩ 5 := by
  decide

/-- C5 (amended): ties are not broken by identifier.  The sort is stable, so
any two occurrence rows that appear in some order in the occurrence list with
non-decreasing `daysUntil` keep that relative order in the sorted output; the
output is therefore a function of the input list, not of the input set. -/
theorem sortedOccurrences_stable (people : List Person) (today : Timestamp)
    (a b : UpcomingBirthday) (hab : a.daysUntil ≤ b.daysUntil)
    (h : List.Sublist [a, b] (occurrences people today)) :
    List.Sublist [a, b] (sortedOccurrences people today) :=
  List.pair_sublist_insertionSort hab h

/-- Witness for C5's amended theorem: two tied occurrence rows keep their
input order in the sorted output. -/
theorem sortedOccurrences_stable_witness :
    List.Sublist [⟨"a", ⟨1990, 6, 20⟩, 5⟩, ⟨"b", ⟨1991, 6, 20⟩, 5⟩]
      (sortedOccurrences [⟨"a", some ⟨1990, 6, 20⟩⟩, ⟨"b", some ⟨1991, 6, 20⟩⟩]
        ⟨⟨2025, 6, 15⟩, 0⟩) :=
  sortedOccurrences_stable _ _ _ _ (by decide) (by decide)

/-- C6: no candidate returned by the search filter has an id that appears as a
counterpart id in the confirmed list or in the pending list (hence in neither
of its incoming/outgoing halves), and an empty candidate list yields the empty
list — for every combination of inputs. -/
theorem excludeConnected_sound (cands : List UserRec) (fs ps : List Friend) :
    (∀ u ∈ excludeConnected cands fs ps,
        u.id ∉ fs.map (fun f => f.id) ∧ u.id ∉ ps.map (fun f => f.id)) ∧
    excludeConnected [] fs ps = [] := by
  constructor
  · intro u hu
    simp only [excludeConnected, List.mem_filter, Bool.not_eq_true'] at hu
    obtain ⟨-, h⟩ := hu
    have h' : List.elem u.id ((fs ++ ps).map (fun f => f.id)) = false := h
    have hnotmem : u.id ∉ (fs ++ ps).map (fun f => f.id) := fun hm =>
      absurd ((List.elem_iff.mpr hm).symm.trans h') (by decide)
    rw [List.map_append, List.mem_append] at hnotmem
    exact ⟨fun hf => hnotmem (Or.inl hf), fun hp => hnotmem (Or.inr hp)⟩
  · rfl

/-- Witness for C6 at a concrete candidate/connection configuration. -/
theorem excludeConnected_sound_witness :
    (∀ u ∈ excludeConnected [⟨"x"⟩] [⟨"b", FriendshipStatus.accepted, "e1", true⟩] [],
        u.id ∉ ([⟨"b", FriendshipStatus.accepted, "e1", true⟩] : List Friend).map
          (fun f => f.id) ∧
        u.id ∉ ([] : List Friend).map (fun f => f.id)) ∧
    excludeConnected [] [⟨"b", FriendshipStatus.accepted, "e1", true⟩] [] = [] :=
  excludeConnected_sound [⟨"x"⟩] [⟨"b", FriendshipStatus.accepted, "e1", true⟩] []

/-- C8: people with a null birth date are silently omitted — removing them
from the input first leaves `upcoming` unchanged, and when nobody has a birth
date the result is the empty list.  `upcoming` is moreover a total function
(its type has no error outcome), so a missing birth date can never produce a
failure. -/
theorem upcoming_skips_null_birthdays (people : List Person) (today : Timestamp)
    (limit : Nat) :
    upcoming people today limit
        = upcoming (people.filter (fun p => p.birthday.isSome)) today limit ∧
    ((∀ p ∈ people, p.birthday = none) → upcoming people today limit = []) := by
  constructor
  · unfold upcoming sortedOccurrences occurrences
    rw [List.filter_filter]
    simp
  · intro h
    have hnil : people.filter (fun p => p.birthday.isSome) = [] := by
      rw [List.filter_eq_nil_iff]
      intro p hp
      simp [h p hp]
    unfold upcoming sortedOccurrences occurrences
    rw [hnil]
    simp

/-- Witness for C8 on a one-person population with no birth date. -/
theorem upcoming_skips_null_birthdays_witness :
    (upcoming [⟨"n", none⟩] ⟨⟨2025, 6, 15⟩, 0⟩ 5
        = upcoming (([⟨"n", none⟩] : List Person).filter (fun p => p.birthday.isSome))
            ⟨⟨2025, 6, 15⟩, 0⟩ 5 ∧
      ((∀ p ∈ ([⟨"n", none⟩] : List Person), p.birthday = none) →
        upcoming [⟨"n", none⟩] ⟨⟨2025, 6, 15⟩, 0⟩ 5 = [])) ∧
    upcoming [⟨"n", none⟩] ⟨⟨2025, 6, 15⟩, 0⟩ 5 = [] :=
  ⟨upcoming_skips_null_birthdays _ _ _,
   (upcoming_skips_null_birthdays [⟨"n", none⟩] ⟨⟨2025, 6, 15⟩, 0⟩ 5).2 (by decide)⟩

/-- C10: a candidate whose every edge-derived counterpart record carries
status declined is not excluded from the search results: declined edges reach
neither the confirmed nor the pending list, and only those two lists feed the
exclusion set, so the candidate survives the filter. -/
theorem declined_only_candidate_not_excluded (viewer : String)
    (edges : List FriendshipEdge) (cands : List UserRec) (c : UserRec)
    (hc : c ∈ cands)
    (hdecl : ∀ e ∈ edges, (friendData viewer e).id = c.id →
      e.status = FriendshipStatus.declined) :
    c ∈ excludeConnected cands (resolve viewer edges).friends
        (resolve viewer edges).pendingRequests := by
  simp only [excludeConnected, List.mem_filter, Bool.not_eq_true']
  refine ⟨hc, ?_⟩
  have hnot : c.id ∉ (((resolve viewer edges).friends
      ++ (resolve viewer edges).pendingRequests).map (fun f => f.id)) := by
    intro hm
    rw [List.map_append, List.mem_append] at hm
    rcases hm with hm | hm
    · obtain ⟨f, hf, hfid⟩ := List.mem_map.mp hm
      simp only [resolve, List.mem_map, List.mem_filter, decide_eq_true_eq] at hf
      obtain ⟨e, ⟨he, hs⟩, rfl⟩ := hf
      have hd := hdecl e he hfid
      rw [hs] at hd
      exact absurd hd (by decide)
    · obtain ⟨f, hf, hfid⟩ := List.mem_map.mp hm
      simp only [resolve, List.mem_map, List.mem_filter, decide_eq_true_eq] at hf
      obtain ⟨e, ⟨he, hs⟩, rfl⟩ := hf
      have hd := hdecl e he hfid
      rw [hs] at hd
      exact absurd hd (by decide)
  exact Bool.eq_false_iff.mpr fun h => hnot (List.elem_iff.mp h)

/-- Witness for C10: a single declined edge between viewer and candidate does
not remove the candidate from the search results. -/
theorem declined_only_candidate_not_excluded_witness :
    (⟨"c"⟩ : UserRec) ∈ excludeConnected [⟨"c"⟩]
        (resolve "v" [⟨"e1", "v", "c", FriendshipStatus.declined⟩]).friends
        (resolve "v" [⟨"e1", "v", "c", FriendshipStatus.declined⟩]).pendingRequests :=
  declined_only_candidate_not_excluded "v" _ _ _ (by decide) (by decide)

end Cheers
